import Mathlib

/-!
Verification of the playback-controller logic of `src/src/components/SpeechifyApp.tsx`.

The component keeps React state `text`, `isPlaying`, `isPaused`, `speed`,
`selectedVoice`, `voices`, `progress`, `currentPosition` plus a ref
`wordsRef` holding the whitespace-split tokens of the last played text.
We embed that state as a `Session` record, and each event handler or engine
callback as a pure function `Session → Session` (paired with the list of
outward effects it performs: speech-engine calls and toast notifications).
JavaScript number arithmetic in the boundary callback is modelled with
exact rationals; `Math.floor` is the rational floor.
-/

/-- The play/pause state of the session, as the spec's enum.  The code keeps
two booleans `isPlaying` and `isPaused`; `Session.state` maps them to this. -/
inductive PlaybackState where
  | Idle
  | Playing
  | Paused
deriving DecidableEq, Repr

/-- A voice as stored in component state (`interface Voice`): name, lang,
voiceURI.  `lang` is kept as a character list so that the code's
`lang.startsWith('en')` is a list-prefix test. -/
structure Voice where
  name : String
  lang : List Char
  voiceURI : String
deriving DecidableEq, Repr

/-- A voice as returned by `speechSynthesis.getVoices()`: the fields the code
reads (`name`, `lang`, `voiceURI`, `localService`). -/
structure EngineVoice where
  name : String
  lang : List Char
  voiceURI : String
  localService : Bool
deriving DecidableEq, Repr

/-- The component's state: the `useState` variables plus the `wordsRef` ref.
`text` is a character list (so JS `length`, `trim` and `split` are list
operations); `speed` is the raw option string exactly as in the code. -/
structure Session where
  text : List Char
  isPlaying : Bool
  isPaused : Bool
  speed : String
  selectedVoice : String
  voices : List Voice
  progress : ℚ
  currentPosition : ℕ
  wordsRef : List (List Char)
deriving DecidableEq, Repr

/-- Derived play/pause state: `isPlaying` means Playing, otherwise `isPaused`
means Paused, otherwise Idle. -/
def Session.state (s : Session) : PlaybackState :=
  if s.isPlaying then PlaybackState.Playing
  else if s.isPaused then PlaybackState.Paused
  else PlaybackState.Idle

/-- An outward effect of a handler: a call on the speech engine, or a toast
notification (`variant` is the toast's variant string, "" when the code
passes none). -/
inductive Effect where
  | engineResume
  | engineCancel
  | enginePause
  | engineSpeak (utterText : List Char) (rate : String)
  | notify (title description variant : String)
deriving DecidableEq, Repr

/-- Whether the effect is a toast notification. -/
def Effect.isNotify : Effect → Bool
  | .notify _ _ _ => true
  | _ => false

/-- Whether the effect is a call on the speech engine. -/
def Effect.isEngineCall : Effect → Bool
  | .engineResume => true
  | .engineCancel => true
  | .enginePause => true
  | .engineSpeak _ _ => true
  | .notify _ _ _ => false

/-- Number of notifications in an effect list. -/
def notifCount (effs : List Effect) : ℕ :=
  (effs.filter Effect.isNotify).length

/-- Number of speech-engine calls in an effect list. -/
def engineCallCount (effs : List Effect) : ℕ :=
  (effs.filter Effect.isEngineCall).length

/-- JS `String.prototype.trim`: drop whitespace from both ends. -/
def trimWs (cs : List Char) : List Char :=
  ((cs.dropWhile Char.isWhitespace).reverse.dropWhile Char.isWhitespace).reverse

/-- Worker for `splitWs`.  `inSep = false` means we are inside the current
token (accumulated reversed in `acc`); `inSep = true` means we are inside a
run of separator whitespace.  Matches `text.split(/\s+/)`: a leading
whitespace run yields an empty first token, a trailing run an empty last
token, and the empty string yields `[""]`. -/
def splitWsAux : List Char → Bool → List Char → List (List Char)
  | [], inSep, acc => if inSep then [[]] else [acc.reverse]
  | c :: rest, inSep, acc =>
    if c.isWhitespace then
      if inSep then splitWsAux rest true acc
      else acc.reverse :: splitWsAux rest true []
    else
      splitWsAux rest false (c :: acc)

/-- JS `text.split(/\s+/)` as used at `wordsRef.current = text.split(/\s+/)`. -/
def splitWs (cs : List Char) : List (List Char) :=
  splitWsAux cs false []

/-- `Math.floor(event.charIndex / (text.length / words.length))`, with JS
number arithmetic modelled by exact rationals. -/
def boundaryWordIndex (textLen tokenCount charIndex : ℕ) : ℤ :=
  ⌊(charIndex : ℚ) / ((textLen : ℚ) / (tokenCount : ℚ))⌋

/-- `(wordIndex / words.length) * 100` from the boundary handler. -/
def boundaryProgress (textLen tokenCount charIndex : ℕ) : ℚ :=
  ((boundaryWordIndex textLen tokenCount charIndex : ℚ) / (tokenCount : ℚ)) * 100

/-- `handlePlay` (lines 58-132): empty-text guard with one destructive toast;
resume path when paused; otherwise cancel any existing speech, store the
whitespace-split tokens in `wordsRef`, and speak a fresh utterance with the
current text and speed.  The state flags are not touched on the fresh path —
`isPlaying` is only set by the utterance's `onstart` callback. -/
def handlePlay (s : Session) : Session × List Effect :=
  if trimWs s.text = [] then
    (s, [Effect.notify "No text to read" "Please enter some text first." "destructive"])
  else if s.isPaused then
    ({ s with isPaused := false, isPlaying := true }, [Effect.engineResume])
  else
    ({ s with wordsRef := splitWs s.text },
      [Effect.engineCancel, Effect.engineSpeak s.text s.speed])

/-- `utterance.onstart` (lines 95-98): mark playing, reset current position. -/
def onStart (s : Session) : Session :=
  { s with isPlaying := true, currentPosition := 0 }

/-- `utterance.onboundary` (lines 100-108).  `utterText` is the `text`
captured by the handler's closure at play time; `wordsRef` is read from the
session (the ref) at event time. -/
def onBoundary (utterText : List Char) (evName : String) (charIndex : ℕ)
    (s : Session) : Session :=
  if evName = "word" then
    { s with
        progress := boundaryProgress utterText.length s.wordsRef.length charIndex,
        currentPosition := charIndex }
  else s

/-- `utterance.onend` (lines 110-118): clear both flags, pin progress to 100,
toast a completion notice. -/
def onEnd (s : Session) : Session × List Effect :=
  ({ s with isPlaying := false, isPaused := false, progress := 100 },
    [Effect.notify "Playback completed" "Finished reading the text." ""])

/-- `utterance.onerror` (lines 120-128): clear both flags, toast an error
notice.  The handler performs no engine call and does not touch `progress`. -/
def onError (s : Session) : Session × List Effect :=
  ({ s with isPlaying := false, isPaused := false },
    [Effect.notify "Playback error" "An error occurred during playback." "destructive"])

/-- `handlePause` (lines 134-140): only acts when `isPlaying`. -/
def handlePause (s : Session) : Session × List Effect :=
  if s.isPlaying then
    ({ s with isPlaying := false, isPaused := true }, [Effect.enginePause])
  else (s, [])

/-- `handleStop` (lines 142-148): cancel, clear flags, reset progress and
position.  Valid from any state. -/
def handleStop (s : Session) : Session × List Effect :=
  ({ s with isPlaying := false, isPaused := false, progress := 0, currentPosition := 0 },
    [Effect.engineCancel])

/-- `voice.lang.startsWith('en')` from the default-voice predicate. -/
def langStartsWithEn : List Char → Bool
  | 'e' :: 'n' :: _ => true
  | _ => false

/-- `voice.lang.startsWith('en') && voice.localService` (lines 42-44). -/
def voiceDefaultPred (v : EngineVoice) : Bool :=
  langStartsWithEn v.lang && v.localService

/-- `loadVoices` (lines 31-56): map the engine's voices into component state;
then, if a default (first English local) voice exists and no voice is
currently selected (`!selectedVoice`, i.e. the empty string), select it. -/
def loadVoices (available : List EngineVoice) (s : Session) : Session :=
  let voiceList := available.map fun v => Voice.mk v.name v.lang v.voiceURI
  let s1 := { s with voices := voiceList }
  match available.find? voiceDefaultPred with
  | some dv => if s.selectedVoice = "" then { s1 with selectedVoice := dv.voiceURI } else s1
  | none => s1

/-- The text of the spec's scenario, "Hello world" (11 characters). -/
def helloText : List Char :=
  ['H', 'e', 'l', 'l', 'o', ' ', 'w', 'o', 'r', 'l', 'd']

/-- The session at mount with the scenario's text entered: Idle, progress 0,
speed "1", no voice selected. -/
def helloSession : Session :=
  { text := helloText, isPlaying := false, isPaused := false, speed := "1",
    selectedVoice := "", voices := [], progress := 0, currentPosition := 0,
    wordsRef := [] }

/-- A session mid-playback (Playing, some boundary-derived progress), used as
a concrete input for witnesses. -/
def playingSession : Session :=
  { helloSession with isPlaying := true, progress := 50, currentPosition := 6,
                      wordsRef := splitWs helloText }

/-! ### Helper lemmas -/

theorem state_eq_Idle (s : Session) :
    s.state = PlaybackState.Idle ↔ s.isPlaying = false ∧ s.isPaused = false := by
  cases hp : s.isPlaying <;> cases hq : s.isPaused <;> simp [Session.state, hp, hq]

theorem state_eq_Playing (s : Session) :
    s.state = PlaybackState.Playing ↔ s.isPlaying = true := by
  cases hp : s.isPlaying <;> cases hq : s.isPaused <;> simp [Session.state, hp, hq]

theorem state_eq_Paused (s : Session) :
    s.state = PlaybackState.Paused ↔ s.isPlaying = false ∧ s.isPaused = true := by
  cases hp : s.isPlaying <;> cases hq : s.isPaused <;> simp [Session.state, hp, hq]

theorem splitWsAux_ne_nil (cs : List Char) :
    ∀ (inSep : Bool) (acc : List Char), splitWsAux cs inSep acc ≠ [] := by
  induction cs with
  | nil => intro inSep acc; cases inSep <;> simp [splitWsAux]
  | cons c rest ih =>
    intro inSep acc
    simp only [splitWsAux]
    split
    · cases inSep
      · simp only [Bool.false_eq_true, if_false]
        exact List.cons_ne_nil _ _
      · simp only [if_true]
        exact ih true acc
    · exact ih false (c :: acc)

theorem splitWs_length_pos (cs : List Char) : 0 < (splitWs cs).length :=
  List.length_pos_iff_ne_nil.mpr (splitWsAux_ne_nil cs false [])

theorem text_ne_nil_of_trim {cs : List Char} (h : trimWs cs ≠ []) : cs ≠ [] := by
  intro hc
  subst hc
  exact h rfl

/-! ### Claim theorems -/

/-- C3: for every text whose trim is empty, `play()` leaves the whole session
unchanged (so an Idle session stays Idle with its progress, speed and voice
untouched), performs no speech-engine call, and raises exactly one
notification. -/
theorem play_emptyText_noop (s : Session) (h : trimWs s.text = []) :
    (handlePlay s).1 = s
    ∧ notifCount (handlePlay s).2 = 1
    ∧ engineCallCount (handlePlay s).2 = 0
    ∧ (s.state = PlaybackState.Idle → (handlePlay s).1.state = PlaybackState.Idle) := by
  simp [handlePlay, h, notifCount, engineCallCount, Effect.isNotify, Effect.isEngineCall]

/-- Witness for `play_emptyText_noop` at the whitespace-only text "  ". -/
theorem play_emptyText_noop_witness :
    ((handlePlay { helloSession with text := [' ', ' '] }).1
        = { helloSession with text := [' ', ' '] })
    ∧ notifCount (handlePlay { helloSession with text := [' ', ' '] }).2 = 1 := by
  have h := play_emptyText_noop { helloSession with text := [' ', ' '] } (by decide)
  exact ⟨h.1, h.2.1⟩

/-- C5: the completion callback pins progress to exactly 100 whatever the last
boundary-derived value was, moves the state to Idle, and surfaces exactly one
completion notification. -/
theorem end_pins_progress_and_idles (s : Session) :
    (onEnd s).1.progress = 100
    ∧ (onEnd s).1.state = PlaybackState.Idle
    ∧ (onEnd s).2 = [Effect.notify "Playback completed" "Finished reading the text." ""]
    ∧ notifCount (onEnd s).2 = 1 := by
  refine ⟨rfl, ?_, rfl, rfl⟩
  simp [onEnd, Session.state]

/-- C6: `stop()` requests an engine cancel, resets progress to exactly 0 and
the state to Idle, from any state; a second stop on the result changes
nothing (stop is idempotent, safe when nothing is playing). -/
theorem stop_resets_and_idempotent (s : Session) :
    (handleStop s).1.progress = 0
    ∧ (handleStop s).1.state = PlaybackState.Idle
    ∧ (handleStop s).2 = [Effect.engineCancel]
    ∧ handleStop (handleStop s).1 = ((handleStop s).1, [Effect.engineCancel]) := by
  refine ⟨rfl, ?_, rfl, rfl⟩
  simp [handleStop, Session.state]

/-- C7: `pause()` moves Playing to Paused with an engine pause request, and is
a strict no-op (same state, no effect) from any non-Playing state — in
particular right after `play()` returns, before the engine's start callback
has fired. -/
theorem pause_only_from_playing :
    (∀ s : Session, s.state = PlaybackState.Playing →
        handlePause s = ({ s with isPlaying := false, isPaused := true }, [Effect.enginePause])
        ∧ (handlePause s).1.state = PlaybackState.Paused)
    ∧ (∀ s : Session, s.state ≠ PlaybackState.Playing → handlePause s = (s, []))
    ∧ (∀ s : Session, s.state = PlaybackState.Idle → trimWs s.text ≠ [] →
        handlePause (handlePlay s).1 = ((handlePlay s).1, [])) := by
  refine ⟨?_, ?_, ?_⟩
  · intro s hs
    have hp : s.isPlaying = true := (state_eq_Playing s).mp hs
    constructor
    · simp [handlePause, hp]
    · simp [handlePause, hp, Session.state]
  · intro s hs
    have hp : s.isPlaying = false := by
      cases h : s.isPlaying
      · rfl
      · exact absurd ((state_eq_Playing s).mpr h) hs
    simp [handlePause, hp]
  · intro s hs ht
    obtain ⟨hp, hq⟩ := (state_eq_Idle s).mp hs
    have hplay : (handlePlay s).1 = { s with wordsRef := splitWs s.text } := by
      simp [handlePlay, ht, hq]
    rw [hplay]
    simp [handlePause, hp]

/-- Witness for `pause_only_from_playing`: pause acts on a concrete Playing
session and is a no-op on the concrete Idle session. -/
theorem pause_only_from_playing_witness :
    (handlePause playingSession
        = ({ playingSession with isPlaying := false, isPaused := true }, [Effect.enginePause]))
    ∧ handlePause helloSession = (helloSession, []) := by
  refine ⟨(pause_only_from_playing.1 playingSession (by decide)).1, ?_⟩
  exact pause_only_from_playing.2.1 helloSession (by decide)

/-- C10: when the session is Paused but the text now trims to empty, the
empty-text guard of `play()` wins over the resume path: the session is
unchanged (still Paused), no engine call happens, and exactly one
notification fires. -/
theorem play_paused_empty_guard (s : Session)
    (hp : s.state = PlaybackState.Paused) (ht : trimWs s.text = []) :
    handlePlay s
        = (s, [Effect.notify "No text to read" "Please enter some text first." "destructive"])
    ∧ (handlePlay s).1.state = PlaybackState.Paused
    ∧ engineCallCount (handlePlay s).2 = 0
    ∧ notifCount (handlePlay s).2 = 1 := by
  have h1 : handlePlay s
      = (s, [Effect.notify "No text to read" "Please enter some text first." "destructive"]) := by
    simp [handlePlay, ht]
  refine ⟨h1, ?_, ?_, ?_⟩
  · rw [h1]; exact hp
  · rw [h1]; rfl
  · rw [h1]; rfl

/-- Witness for `play_paused_empty_guard` at a concrete Paused session whose
text is a single blank. -/
theorem play_paused_empty_guard_witness :
    handlePlay { helloSession with text := [' '], isPaused := true }
      = ({ helloSession with text := [' '], isPaused := true },
          [Effect.notify "No text to read" "Please enter some text first." "destructive"]) := by
  exact (play_paused_empty_guard { helloSession with text := [' '], isPaused := true }
    (by decide) (by decide)).1

/-- C4: from a non-Paused state with non-empty (after trim) text, `play()`
itself leaves the playing flag untouched — starting from Idle the state is
still not Playing when `play()` returns, and a boundary event does not change
that — and the state becomes Playing exactly when the engine's start
callback runs. -/
theorem play_waits_for_start (s : Session)
    (hp : s.isPaused = false) (ht : trimWs s.text ≠ []) :
    (handlePlay s).1.isPlaying = s.isPlaying
    ∧ (handlePlay s).1.isPaused = false
    ∧ (s.isPlaying = false → (handlePlay s).1.state ≠ PlaybackState.Playing)
    ∧ (onStart (handlePlay s).1).state = PlaybackState.Playing
    ∧ (∀ (e : String) (c : ℕ),
        (onBoundary s.text e c (handlePlay s).1).isPlaying = (handlePlay s).1.isPlaying) := by
  have hplay : (handlePlay s).1 = { s with wordsRef := splitWs s.text } := by
    simp [handlePlay, ht, hp]
  rw [hplay]
  refine ⟨rfl, hp, ?_, ?_, ?_⟩
  · intro hnp
    simp [Session.state, hnp, hp]
  · simp [onStart, Session.state]
  · intro e c
    unfold onBoundary
    split <;> rfl

/-- Witness for `play_waits_for_start` at the scenario session. -/
theorem play_waits_for_start_witness :
    (handlePlay helloSession).1.isPlaying = helloSession.isPlaying
    ∧ (handlePlay helloSession).1.state ≠ PlaybackState.Playing
    ∧ (onStart (handlePlay helloSession).1).state = PlaybackState.Playing := by
  have h := play_waits_for_start helloSession (by decide) (by decide)
  exact ⟨h.1, h.2.2.1 rfl, h.2.2.2.1⟩

/-- C8: the error callback forces the state to Idle and surfaces exactly one
error notification; it performs no engine call (no retry), and it leaves the
session with `isPaused = false`, so no partial progress survives into a
resume: a following `play()` re-synthesizes the whole text from scratch
(cancel then speak, never resume). -/
theorem error_idles_no_retry (s : Session) (ht : trimWs s.text ≠ []) :
    (onError s).1.state = PlaybackState.Idle
    ∧ (onError s).2
        = [Effect.notify "Playback error" "An error occurred during playback." "destructive"]
    ∧ notifCount (onError s).2 = 1
    ∧ engineCallCount (onError s).2 = 0
    ∧ (onError s).1.isPaused = false
    ∧ handlePlay (onError s).1
        = ({ (onError s).1 with wordsRef := splitWs s.text },
            [Effect.engineCancel, Effect.engineSpeak s.text s.speed]) := by
    refine ⟨?_, rfl, rfl, rfl, rfl, ?_⟩
    · simp [onError, Session.state]
    · simp [handlePlay, onError, ht]

/-- Witness for `error_idles_no_retry` at a concrete mid-playback session. -/
theorem error_idles_no_retry_witness :
    (onError playingSession).1.state = PlaybackState.Idle
    ∧ handlePlay (onError playingSession).1
        = ({ (onError playingSession).1 with wordsRef := splitWs helloText },
            [Effect.engineCancel, Effect.engineSpeak helloText "1"]) := by
  have h := error_idles_no_retry playingSession (by decide)
  exact ⟨h.1, h.2.2.2.2.2⟩

/-- `loadVoices` applies the default voice to an unselected session. -/
theorem loadVoices_selects_default {avail : List EngineVoice} {s : Session} {v : EngineVoice}
    (hsel : s.selectedVoice = "") (hfind : avail.find? voiceDefaultPred = some v) :
    (loadVoices avail s).selectedVoice = v.voiceURI := by
  simp [loadVoices, hfind, hsel]

/-- `loadVoices` never changes an existing (non-empty) selection. -/
theorem loadVoices_keeps_selection {avail : List EngineVoice} {s : Session}
    (hsel : s.selectedVoice ≠ "") :
    (loadVoices avail s).selectedVoice = s.selectedVoice := by
  unfold loadVoices
  cases hfind : avail.find? voiceDefaultPred with
  | none => rfl
  | some dv => simp [hsel]

/-- C9: each voice-list refresh stores the mapped voice list; the default
selection is the first available voice whose language starts with "en" and
which is local (`List.find?` of the code's predicate), and it is applied only
when no voice is selected; once a (non-empty) selection exists — in
particular after that first default — later refreshes leave it unchanged. -/
theorem loadVoices_default_pinned :
    (∀ (avail : List EngineVoice) (s : Session),
        (loadVoices avail s).voices = avail.map fun v => Voice.mk v.name v.lang v.voiceURI)
    ∧ (∀ (avail : List EngineVoice) (s : Session) (v : EngineVoice),
        s.selectedVoice = "" → avail.find? voiceDefaultPred = some v →
          (loadVoices avail s).selectedVoice = v.voiceURI ∧ voiceDefaultPred v = true)
    ∧ (∀ (avail : List EngineVoice) (s : Session), s.selectedVoice ≠ "" →
        (loadVoices avail s).selectedVoice = s.selectedVoice)
    ∧ (∀ (avail1 avail2 : List EngineVoice) (s : Session) (v : EngineVoice),
        s.selectedVoice = "" → avail1.find? voiceDefaultPred = some v → v.voiceURI ≠ "" →
          (loadVoices avail2 (loadVoices avail1 s)).selectedVoice = v.voiceURI) := by
  refine ⟨?_, ?_, ?_, ?_⟩
  · intro avail s
    unfold loadVoices
    cases hfind : avail.find? voiceDefaultPred with
    | none => rfl
    | some dv =>
      by_cases hsel : s.selectedVoice = "" <;> simp [hsel]
  · intro avail s v hsel hfind
    exact ⟨loadVoices_selects_default hsel hfind, List.find?_some hfind⟩
  · intro avail s hsel
    exact loadVoices_keeps_selection hsel
  · intro avail1 avail2 s v hsel hfind hne
    have h1 := loadVoices_selects_default hsel hfind
    have h2 : (loadVoices avail2 (loadVoices avail1 s)).selectedVoice
        = (loadVoices avail1 s).selectedVoice :=
      loadVoices_keeps_selection (by rw [h1]; exact hne)
    rw [h2, h1]

/-- Witness for `loadVoices_default_pinned`: a two-voice engine list whose
second voice is the first English local one; it is selected when nothing is,
kept across a second refresh, and an explicit selection is never replaced. -/
theorem loadVoices_default_pinned_witness :
    (loadVoices
        [⟨"Anna", ['d', 'e'], "uri-a", true⟩, ⟨"Ben", ['e', 'n'], "uri-b", true⟩]
        helloSession).selectedVoice = "uri-b"
    ∧ (loadVoices [] (loadVoices
        [⟨"Anna", ['d', 'e'], "uri-a", true⟩, ⟨"Ben", ['e', 'n'], "uri-b", true⟩]
        helloSession)).selectedVoice = "uri-b"
    ∧ (loadVoices [⟨"Ben", ['e', 'n'], "uri-b", true⟩]
        { helloSession with selectedVoice := "chosen" }).selectedVoice = "chosen" := by
  refine ⟨?_, ?_, ?_⟩
  · exact (loadVoices_default_pinned.2.1
      [⟨"Anna", ['d', 'e'], "uri-a", true⟩, ⟨"Ben", ['e', 'n'], "uri-b", true⟩]
      helloSession ⟨"Ben", ['e', 'n'], "uri-b", true⟩ rfl (by decide)).1
  · exact loadVoices_default_pinned.2.2.2
      [⟨"Anna", ['d', 'e'], "uri-a", true⟩, ⟨"Ben", ['e', 'n'], "uri-b", true⟩] [] helloSession
      ⟨"Ben", ['e', 'n'], "uri-b", true⟩ rfl (by decide) (by decide)
  · exact loadVoices_default_pinned.2.2.1 [⟨"Ben", ['e', 'n'], "uri-b", true⟩]
      { helloSession with selectedVoice := "chosen" } (by decide)

theorem boundaryWordIndex_nonneg (L n c : ℕ) : 0 ≤ boundaryWordIndex L n c := by
  unfold boundaryWordIndex
  exact Int.floor_nonneg.mpr
    (div_nonneg (Nat.cast_nonneg c) (div_nonneg (Nat.cast_nonneg L) (Nat.cast_nonneg n)))

theorem boundaryWordIndex_mono {L n : ℕ} (hL : 0 < L) (hn : 0 < n) {c1 c2 : ℕ}
    (h : c1 ≤ c2) : boundaryWordIndex L n c1 ≤ boundaryWordIndex L n c2 := by
  unfold boundaryWordIndex
  have hpos : (0:ℚ) < (L:ℚ) / (n:ℚ) :=
    div_pos (by exact_mod_cast hL) (by exact_mod_cast hn)
  exact Int.floor_le_floor ((div_le_div_iff_of_pos_right hpos).mpr (by exact_mod_cast h))

theorem boundaryWordIndex_lt {L n c : ℕ} (hL : 0 < L) (hn : 0 < n) (hc : c < L) :
    boundaryWordIndex L n c < (n : ℤ) := by
  unfold boundaryWordIndex
  rw [Int.floor_lt]
  have hpos : (0:ℚ) < (L:ℚ) / (n:ℚ) :=
    div_pos (by exact_mod_cast hL) (by exact_mod_cast hn)
  rw [div_lt_iff₀ hpos]
  have hn0 : (n:ℚ) ≠ 0 := by
    exact_mod_cast hn.ne'
  have hkey : ((n : ℤ) : ℚ) * ((L:ℚ) / (n:ℚ)) = (L:ℚ) := by
    push_cast
    field_simp
  rw [hkey]
  exact_mod_cast hc

theorem boundaryProgress_nonneg (L n c : ℕ) : 0 ≤ boundaryProgress L n c := by
  unfold boundaryProgress
  have h0 : (0:ℚ) ≤ (boundaryWordIndex L n c : ℚ) := by
    exact_mod_cast boundaryWordIndex_nonneg L n c
  exact mul_nonneg (div_nonneg h0 (Nat.cast_nonneg n)) (by norm_num)

theorem boundaryProgress_le_100 {L n c : ℕ} (hL : 0 < L) (hn : 0 < n) (hc : c < L) :
    boundaryProgress L n c ≤ 100 := by
  unfold boundaryProgress
  have hn' : (0:ℚ) < (n:ℚ) := by exact_mod_cast hn
  have hwi : (boundaryWordIndex L n c : ℚ) ≤ (n:ℚ) := by
    have h := boundaryWordIndex_lt hL hn hc
    exact_mod_cast h.le
  have hdiv : (boundaryWordIndex L n c : ℚ) / (n:ℚ) ≤ 1 := (div_le_one hn').mpr hwi
  calc ((boundaryWordIndex L n c : ℚ) / (n:ℚ)) * 100 ≤ 1 * 100 :=
        mul_le_mul_of_nonneg_right hdiv (by norm_num)
    _ = 100 := by norm_num

theorem boundaryProgress_mono {L n : ℕ} (hL : 0 < L) (hn : 0 < n) {c1 c2 : ℕ}
    (h : c1 ≤ c2) : boundaryProgress L n c1 ≤ boundaryProgress L n c2 := by
  unfold boundaryProgress
  have hn' : (0:ℚ) < (n:ℚ) := by exact_mod_cast hn
  have hwi : (boundaryWordIndex L n c1 : ℚ) ≤ (boundaryWordIndex L n c2 : ℚ) := by
    exact_mod_cast boundaryWordIndex_mono hL hn h
  exact mul_le_mul_of_nonneg_right ((div_le_div_iff_of_pos_right hn').mpr hwi) (by norm_num)

/-- C2: within one utterance (text whose trim is non-empty, `wordsRef` holding
its whitespace-split tokens), any non-decreasing sequence of word-boundary
character indices inside `[0, textLength)` yields a non-decreasing sequence of
progress values, each bounded in `[0, 100]`. -/
theorem boundary_progress_monotone_bounded (t : List Char) (s : Session) (cs : List ℕ)
    (ht : trimWs t ≠ []) (hw : s.wordsRef = splitWs t)
    (hlt : ∀ c ∈ cs, c < t.length) (hmono : List.Pairwise (· ≤ ·) cs) :
    List.Pairwise (· ≤ ·) (cs.map fun c => (onBoundary t "word" c s).progress)
    ∧ ∀ p ∈ cs.map fun c => (onBoundary t "word" c s).progress, 0 ≤ p ∧ p ≤ 100 := by
  have hL : 0 < t.length := List.length_pos_iff_ne_nil.mpr (text_ne_nil_of_trim ht)
  have hn : 0 < s.wordsRef.length := by rw [hw]; exact splitWs_length_pos t
  have hprog : ∀ c : ℕ, (onBoundary t "word" c s).progress
      = boundaryProgress t.length s.wordsRef.length c := by
    intro c
    simp [onBoundary]
  constructor
  · rw [List.pairwise_map]
    refine hmono.imp ?_
    intro a b hab
    rw [hprog a, hprog b]
    exact boundaryProgress_mono hL hn hab
  · intro p hp
    rw [List.mem_map] at hp
    obtain ⟨c, hc, rfl⟩ := hp
    rw [hprog c]
    exact ⟨boundaryProgress_nonneg _ _ _, boundaryProgress_le_100 hL hn (hlt c hc)⟩

/-- Witness for `boundary_progress_monotone_bounded`: the scenario events
`[0, 6]` on "Hello world". -/
theorem boundary_progress_monotone_bounded_witness :
    List.Pairwise (· ≤ ·)
      ([0, 6].map fun c => (onBoundary helloText "word" c playingSession).progress)
    ∧ ∀ p ∈ [0, 6].map fun c => (onBoundary helloText "word" c playingSession).progress,
        0 ≤ p ∧ p ≤ 100 :=
  boundary_progress_monotone_bounded helloText playingSession [0, 6]
    (by decide) rfl (by decide) (by decide)

/-- C1: the boundary callback sets progress to `100 * wordIndex / tokenCount`
with `wordIndex = floor(charIndex / (textLength / tokenCount))`; a fresh
`play()` stores the whitespace-split tokens of the played text in `wordsRef`
("Hello world" has 2 of them); and in the spec's scenario the boundary events
at character indices 0 and 6 produce progress 0 and 50, after which the end
callback leaves the session Idle with progress exactly 100. -/
theorem boundary_formula_hello_scenario :
    (∀ (t : List Char) (c : ℕ) (s : Session),
        (onBoundary t "word" c s).progress
          = 100 * (boundaryWordIndex t.length s.wordsRef.length c : ℚ)
              / (s.wordsRef.length : ℚ))
    ∧ (∀ s : Session, trimWs s.text ≠ [] → s.isPaused = false →
        (handlePlay s).1.wordsRef = splitWs s.text)
    ∧ (splitWs helloText).length = 2
    ∧ ((onBoundary helloText "word" 0 (onStart (handlePlay helloSession).1)).progress = 0
        ∧ (onBoundary helloText "word" 6 (onBoundary helloText "word" 0
              (onStart (handlePlay helloSession).1))).progress = 50
        ∧ (onEnd (onBoundary helloText "word" 6 (onBoundary helloText "word" 0
              (onStart (handlePlay helloSession).1)))).1.state = PlaybackState.Idle
        ∧ (onEnd (onBoundary helloText "word" 6 (onBoundary helloText "word" 0
              (onStart (handlePlay helloSession).1)))).1.progress = 100) := by
  refine ⟨?_, ?_, by decide, ?_, ?_, by decide, rfl⟩
  · intro t c s
    show boundaryProgress t.length s.wordsRef.length c
        = 100 * (boundaryWordIndex t.length s.wordsRef.length c : ℚ) / (s.wordsRef.length : ℚ)
    unfold boundaryProgress
    ring
  · intro s ht hp
    simp [handlePlay, ht, hp]
  · have e1 : (onBoundary helloText "word" 0 (onStart (handlePlay helloSession).1)).progress
        = boundaryProgress 11 2 0 := rfl
    rw [e1]
    norm_num [boundaryProgress, boundaryWordIndex]
  · have e2 : (onBoundary helloText "word" 6 (onBoundary helloText "word" 0
        (onStart (handlePlay helloSession).1))).progress = boundaryProgress 11 2 6 := rfl
    rw [e2]
    norm_num [boundaryProgress, boundaryWordIndex]

/-- Witness for `boundary_formula_hello_scenario`: `play()` on the scenario
session stores the two tokens of "Hello world". -/
theorem boundary_formula_hello_scenario_witness :
    (handlePlay helloSession).1.wordsRef = splitWs helloText :=
  boundary_formula_hello_scenario.2.1 helloSession (by decide) rfl
